import Mathlib

/-!
Shallow embedding of ros/src/waypoint_updater/waypoint_updater.py.

Python floats are modelled as real numbers.  Each ROS callback is modelled
as a pure function from the node state (the mutable attributes set in
WaypointUpdater.__init__) and the incoming message to the new state together
with the values published on the outbound topics.  A returned
Except.error marks a path on which the Python code raises an exception
(IndexError or ZeroDivisionError) and therefore publishes nothing.
-/

open Classical

noncomputable section

/-- geometry_msgs/Point: a triple of float64 coordinates. -/
structure Point where
  x : ℝ
  y : ℝ
  z : ℝ

/-- styx_msgs/Waypoint, reduced to the fields the node ever reads:
the pose position (wp.pose.pose.position) and the forward linear velocity
(wp.twist.twist.linear.x), which is carried through the node unchanged. -/
structure Waypoint where
  pos : Point
  twist_x : ℝ

/-- Placeholder waypoint used for list indexing; every index the code uses
is in range, so this default is never produced on the modelled paths. -/
def wpDefault : Waypoint := ⟨⟨0, 0, 0⟩, 0⟩

/-- The mutable attributes of WaypointUpdater set in __init__ and in
waypoints_cb: the held track (self.wps), the cumulative arc-length table
(self.wp_ss), the last seen position (self.prev_pt), the sticky nearest
index (self.prev_index), the last published next index (self.next_pt) and
the average waypoint spacing (self.avg_wp_dist).  In the Python source
avg_wp_dist is only assigned in waypoints_cb; it is never read before the
first track load (pose_cb returns early while the track is empty), so the
initial value 0 here is unobservable. -/
structure NodeState where
  wps : List Waypoint
  wp_ss : List ℝ
  prev_pt : Point
  prev_index : Int
  next_pt : Int
  avg_wp_dist : ℝ

/-- The state built by WaypointUpdater.__init__. -/
def initState : NodeState :=
  { wps := [], wp_ss := [], prev_pt := ⟨0, 0, 0⟩, prev_index := -1,
    next_pt := -1, avg_wp_dist := 0 }

/-- point_dist_sq: sum of squared per-axis differences. -/
def point_dist_sq (a b : Point) : ℝ :=
  (a.x - b.x) * (a.x - b.x) + (a.y - b.y) * (a.y - b.y) + (a.z - b.z) * (a.z - b.z)

/-- point_dist: Euclidean distance. -/
def point_dist (a b : Point) : ℝ :=
  Real.sqrt (point_dist_sq a b)

/-- waypoints_to_vec: planar vector from a to b (z ignored). -/
def waypoints_to_vec (a b : Point) : ℝ × ℝ :=
  (b.x - a.x, b.y - a.y)

/-- dot_prod: planar dot product. -/
def dot_prod (a b : ℝ × ℝ) : ℝ :=
  a.1 * b.1 + a.2 * b.2

/-- line_ratio: the projection ratio of b onto the line a-c, divided by the
distance from a to c (not by its square, exactly as in the source).  Real
division is total, so the model returns 0 where Python would raise a
ZeroDivisionError (only possible when a and c coincide); theorems about
call sites carry a hypothesis excluding that case. -/
def line_ratio (a b c : Point) : ℝ :=
  dot_prod (waypoints_to_vec a b) (waypoints_to_vec a c) / point_dist a c

/-- LOOKAHEAD_WPS constant from the source. -/
def LOOKAHEAD_WPS : ℕ := 240

/-- Squared distance from waypoint i of the track to the query point, the
quantity minimised by the scan loop of nearest_waypoint. -/
def dsqTo (wps : List Waypoint) (ppt : Point) (i : ℕ) : ℝ :=
  point_dist_sq ((wps.getD i wpDefault).pos) ppt

/-- One iteration of the minimum-distance scan loop of nearest_waypoint
(source lines 136-142): the accumulator (mini, mindist) is replaced when
mini is still -1 or the current squared distance is strictly smaller. -/
def scan_step (wps : List Waypoint) (ppt : Point) (acc : Int × ℝ) (i : ℕ) : Int × ℝ :=
  if acc.1 < 0 ∨ dsqTo wps ppt i < acc.2 then ((i : Int), dsqTo wps ppt i) else acc

/-- The minimum-distance scan loop of nearest_waypoint (source lines
134-142): walk the index range, keeping the first index realising the
strictly smallest squared distance; the accumulator starts at (-1, 0.). -/
def scan_min (wps : List Waypoint) (ppt : Point) (rg : List ℕ) : Int × ℝ :=
  rg.foldl (scan_step wps ppt) ((-1 : Int), (0 : ℝ))

/-- The reset heuristic at the top of nearest_waypoint (source lines
124-129): if the squared jump from the last seen position exceeds
0.5 * avg_wp_dist * 200 the sticky index is discarded. -/
def reset_index (s : NodeState) (ppt : Point) : Int :=
  if point_dist_sq ppt s.prev_pt > 0.5 * s.avg_wp_dist * 200 then -1 else s.prev_index

/-- The index range searched by nearest_waypoint (source lines 131-133):
the whole track when the sticky index is unset, otherwise the window from
max(0, prev_index - 5) up to min(track length, prev_index + 200 + 1)
exclusive. -/
def search_range (len : ℕ) (pidx : Int) : List ℕ :=
  if -1 < pidx then
    List.range' (max 0 (pidx - 5)).toNat
      (min len (pidx + 200 + 1).toNat - (max 0 (pidx - 5)).toNat)
  else
    List.range len

/-- nearest_waypoint (source lines 122-147).  Returns the updated state and
the selected index.  The boundary check compares the selected index with
the first and last element of whichever range was searched; on the
(unreachable while the track is loaded) empty-range case Python would raise
an IndexError at rg[0], while this model returns -1. -/
def nearest_waypoint (s : NodeState) (pose : Point) : NodeState × Int :=
  let ppt := pose
  let pidx := reset_index s ppt
  let rg := search_range s.wps.length pidx
  let m := scan_min s.wps ppt rg
  let newIdx : Int :=
    if rg.head?.map (fun n => (n : Int)) = some m.1 ∨
       rg.getLast?.map (fun n => (n : Int)) = some m.1 then -1 else m.1
  ({ s with prev_pt := ppt, prev_index := newIdx }, m.1)

/-- next_waypoint (source lines 153-169): refine the nearest index by the
projection-ratio test, advancing one index (with wraparound) when the pose
projects past the nearest waypoint. -/
def next_waypoint (s : NodeState) (pose : Point) : NodeState × Int :=
  let r := nearest_waypoint s pose
  let s1 := r.1
  let cur := r.2
  let nwps := s1.wps.length
  if nwps = 0 ∨ cur < 0 ∨ (nwps : Int) - 1 < cur then (s1, -1)
  else
    let curN := cur.toNat
    let cpt := (s1.wps.getD curN wpDefault).pos
    let prevI := (curN + nwps - 1) % nwps
    let ppt := (s1.wps.getD prevI wpDefault).pos
    let nxtI := (curN + 1) % nwps
    let npt := (s1.wps.getD nxtI wpDefault).pos
    if line_ratio ppt cpt npt < line_ratio ppt pose npt then (s1, (nxtI : Int))
    else (s1, cur)

/-- The lookahead-window slice built in pose_cb (source lines 216-224):
take the track from next_pt up to min(next_pt + 240, track length), then,
if next_pt + 240 ran past the end, append the first
next_pt + 240 - length waypoints from the start of the track. -/
def lookahead_window (wps : List Waypoint) (next_pt : ℕ) : List Waypoint :=
  let wpsz := wps.length
  let end_pt := next_pt + LOOKAHEAD_WPS
  let past_zero_pt : Int := (end_pt : Int) - (wpsz : Int)
  (wps.drop next_pt).take (min end_pt wpsz - next_pt) ++
    (if 0 < past_zero_pt then wps.take past_zero_pt.toNat else [])

/-- pose_cb (source lines 172-233).  Returns the new state and, when the
callback publishes, the pair of the final_waypoints lane contents and the
next_waypoint index; none models the early returns that publish nothing.
The decoded orientation and timestamp of the source are pure diagnostics
with no effect on state or output and are not modelled. -/
def pose_cb (s : NodeState) (pose : Point) : NodeState × Option (List Waypoint × Int) :=
  if s.wps.length = 0 then (s, none)
  else
    let r := next_waypoint s pose
    let s2 := { r.1 with next_pt := r.2 }
    if r.2 < 0 then (s2, none)
    else (s2, some (lookahead_window s2.wps r.2.toNat, r.2))

/-- The two exceptions the Python callbacks can raise. -/
inductive PyError where
  | indexError
  | zeroDivisionError
deriving DecidableEq

/-- The arc-length accumulation loop of waypoints_cb (source lines
298-307): k remaining iterations, current loop index i, previous point and
running sum; each step appends the new running sum.  Indexing is i mod the
track length, exactly as in the source. -/
def build_ss_step (wps : List Waypoint) : ℕ → ℕ → Point → ℝ → List ℝ
  | 0, _, _, _ => []
  | k + 1, i, prev, acc =>
    let cur := (wps.getD (i % wps.length) wpDefault).pos
    let acc2 := acc + point_dist prev cur
    acc2 :: build_ss_step wps k (i + 1) cur acc2

/-- The average-spacing numerator of waypoints_cb (source lines 309-314):
sum of consecutive-pair distances for i = 1 .. length - 1. -/
def gaps_sum (wps : List Waypoint) : ℝ :=
  (List.range' 1 (wps.length - 1)).foldl
    (fun acc i =>
      acc + point_dist ((wps.getD i wpDefault).pos) ((wps.getD (i - 1) wpDefault).pos))
    0

/-- waypoints_cb (source lines 274-315).  A message whose element count
equals the held track is a no-op.  Otherwise the track is replaced and the
arc-length entries are appended to the existing self.wp_ss (the source
never clears it).  self.wps[0] on an empty replacement raises IndexError;
the division by (length - 1) raises ZeroDivisionError for a one-element
track.  (On those two error paths Python has already replaced self.wps and
extended self.wp_ss before raising; no claim inspects the post-crash state,
so the model collapses them to the error value.) -/
def waypoints_cb (s : NodeState) (ws : List Waypoint) : Except PyError NodeState :=
  if ws.length = s.wps.length then .ok s
  else
    match ws.head? with
    | none => .error .indexError
    | some w0 =>
      let table := build_ss_step ws (ws.length + 1) 0 w0.pos 0
      if ws.length - 1 = 0 then .error .zeroDivisionError
      else
        .ok { s with
                wps := ws,
                wp_ss := s.wp_ss ++ table,
                avg_wp_dist := gaps_sum ws / ((ws.length : ℝ) - 1) }

/-- traffic_cb (source lines 374-397).  Decodes the signed light index,
computes the signed arc distance when both the tracker index and the
decoded magnitude are non-negative, wrapping by the full loop length when
the raw subtraction is negative, and publishes sgn * dist.  Out-of-range
table accesses raise IndexError (publishing nothing); the operands of the
subtraction are evaluated left to right as in Python. -/
def traffic_cb (s : NodeState) (msg : Int) : Except PyError ℝ :=
  let sgn : ℝ := if msg < 0 then -1 else 1
  let next_tl : Int := if msg < 0 then -msg else msg
  if 0 ≤ s.next_pt ∧ 0 ≤ next_tl then
    match s.wp_ss[next_tl.toNat]? with
    | none => .error .indexError
    | some a =>
      match s.wp_ss[s.next_pt.toNat]? with
      | none => .error .indexError
      | some b =>
        if a - b < 0 then
          match s.wp_ss[s.wps.length]? with
          | none => .error .indexError
          | some c => .ok (sgn * (a - b + c))
        else .ok (sgn * (a - b))
  else .ok (sgn * (-1))

/-- Concrete three-waypoint collinear track at x = 0, 1, 2, used as a small
test track throughout. -/
def exWps : List Waypoint := [⟨⟨0, 0, 0⟩, 0⟩, ⟨⟨1, 0, 0⟩, 0⟩, ⟨⟨2, 0, 0⟩, 0⟩]

/-- A state holding exWps with an arbitrary consistent arc-length table
(loop length 1000, vehicle arc position 950) and tracked next index 2. -/
def tlS : NodeState :=
  { initState with
      wps := exWps
      wp_ss := [0, 50, 950, 1000]
      next_pt := 2
      avg_wp_dist := 1 }

/-- A two-waypoint track used as the first load in the reload scenario. -/
def trackA : List Waypoint := [⟨⟨0, 0, 0⟩, 0⟩, ⟨⟨1, 0, 0⟩, 0⟩]

/-- A state already holding the two-waypoint trackA. -/
def heldS : NodeState :=
  { initState with
      wps := trackA
      wp_ss := [0, 1, 2]
      avg_wp_dist := 1 }

/-- The state right after the first load of exWps: arc-length table
0, 1, 2, 4 (the wraparound gap from x = 2 back to x = 0 has length 2) and
average spacing 1; sticky index and next index still unset. -/
def freshS : NodeState :=
  { initState with
      wps := exWps
      wp_ss := [0, 1, 2, 4]
      avg_wp_dist := 1 }

/-- freshS with the sticky index set to 2, so that the following search
takes the bounded-window branch. -/
def boundedS : NodeState :=
  { freshS with prev_index := 2 }

/-- Query pose at x = 1.4 on the exWps track. -/
def p14 : Point := ⟨1.4, 0, 0⟩

/-- Query pose at x = 1.6 on the exWps track (the input of the claimed
next-waypoint example). -/
def p16 : Point := ⟨1.6, 0, 0⟩

/-- Query pose at x = -1, whose nearest exWps waypoint is index 0. -/
def pneg : Point := ⟨-1, 0, 0⟩

/-- Query pose at x = 2.2, whose nearest exWps waypoint is index 2. -/
def p22 : Point := ⟨2.2, 0, 0⟩

/-- Query pose far from the origin, beyond the reset threshold. -/
def p1000 : Point := ⟨1000, 0, 0⟩

/-- A 300-waypoint track; the window slicing is purely positional, so the
waypoints themselves can all coincide. -/
def R300 : List Waypoint := List.replicate 300 wpDefault

end

noncomputable section

/-- Helper: whenever the tracker has no valid next index, traffic_cb leaves
the distance at its -1.0 initial value and publishes sgn * (-1). -/
lemma traffic_cb_of_neg_next_pt (s : NodeState) (msg : Int) (h : s.next_pt < 0) :
    traffic_cb s msg = .ok ((if msg < 0 then (-1 : ℝ) else 1) * (-1)) := by
  unfold traffic_cb
  rw [if_neg (fun hc => absurd hc.1 (not_le.mpr h))]

/-- C3: when the decoded magnitude and the tracked next index are both valid
track indices and the arc-length table has trackLength + 1 entries, the
relay publishes sign times (arcLength at the magnitude minus arcLength at
the tracked index), with the full loop length added when that raw
subtraction is negative. -/
theorem traffic_cb_signed_distance (s : NodeState) (msg : Int)
    (h0 : 0 ≤ s.next_pt)
    (hnp : s.next_pt.toNat < s.wps.length)
    (hmag : (if msg < 0 then -msg else msg).toNat < s.wps.length)
    (hss : s.wp_ss.length = s.wps.length + 1) :
    traffic_cb s msg =
      .ok ((if msg < 0 then (-1 : ℝ) else 1) *
        (if s.wp_ss.getD (if msg < 0 then -msg else msg).toNat 0
              - s.wp_ss.getD s.next_pt.toNat 0 < 0
         then s.wp_ss.getD (if msg < 0 then -msg else msg).toNat 0
              - s.wp_ss.getD s.next_pt.toNat 0 + s.wp_ss.getD s.wps.length 0
         else s.wp_ss.getD (if msg < 0 then -msg else msg).toNat 0
              - s.wp_ss.getD s.next_pt.toNat 0)) := by
  have htl : (0 : Int) ≤ if msg < 0 then -msg else msg := by split <;> omega
  have h1 : (if msg < 0 then -msg else msg).toNat < s.wp_ss.length := by omega
  have h2 : s.next_pt.toNat < s.wp_ss.length := by omega
  have h3 : s.wps.length < s.wp_ss.length := by omega
  unfold traffic_cb
  rw [if_pos ⟨h0, htl⟩, List.getElem?_eq_getElem h1, List.getElem?_eq_getElem h2,
      List.getElem?_eq_getElem h3]
  simp only [List.getD_eq_getElem?_getD, List.getElem?_eq_getElem h1,
      List.getElem?_eq_getElem h2, List.getElem?_eq_getElem h3, Option.getD_some]
  by_cases hlt :
      s.wp_ss[(if msg < 0 then -msg else msg).toNat] - s.wp_ss[s.next_pt.toNat] < 0
  · rw [if_pos hlt, if_pos hlt]
  · rw [if_neg hlt, if_neg hlt]

/-- Witness for C3 at the spec's example numbers: loop length 1000, vehicle
arc position 950 (index 2), light arc position 50 (index 1), red-light
input 1; the published value is 50 - 950 + 1000 = 100. -/
theorem traffic_cb_signed_distance_witness : traffic_cb tlS 1 = Except.ok 100 := by
  have h := traffic_cb_signed_distance tlS 1 (by norm_num [tlS, initState])
    (by norm_num [tlS, initState, exWps]) (by norm_num [tlS, initState, exWps])
    (by norm_num [tlS, initState, exWps])
  rw [h]
  norm_num [tlS, initState, exWps, List.getD, show Int.toNat 2 = 2 from rfl]

/-- C6 (amended): with no valid tracked next index the published value is
the decoded sign times -1.0: that is -1.0 for a non-negative input but +1.0
for a negative input (the claim's clause that the net output is negative
regardless of the input sign does not hold). -/
theorem traffic_cb_no_data_sentinel (s : NodeState) (msg : Int) (h : s.next_pt < 0) :
    traffic_cb s msg = .ok ((if msg < 0 then (-1 : ℝ) else 1) * (-1)) :=
  traffic_cb_of_neg_next_pt s msg h

/-- Counterexample for C6 as stated: with no tracked index and the negative
input -3, the published value is +1.0, which is not negative. -/
theorem traffic_cb_no_data_positive_cex :
    traffic_cb initState (-3) = Except.ok 1 ∧ ¬ ((1 : ℝ) < 0) := by
  constructor
  · rw [traffic_cb_of_neg_next_pt initState (-3) (by norm_num [initState])]
    norm_num
  · norm_num

/-- Witness for C6: a red-light (non-negative) input with no tracked index
publishes -1.0. -/
theorem traffic_cb_no_data_sentinel_witness : traffic_cb initState 7 = Except.ok (-1) := by
  rw [traffic_cb_no_data_sentinel initState 7 (by norm_num [initState])]
  norm_num

/-- C5 (amended): a pose event arriving while no track is held is silently
ignored with no output, but a traffic-light event arriving in the initial
state (before any track load) is still processed and publishes the
sign-combined -1.0 sentinel on the distance channel. -/
theorem missing_track_handling :
    (∀ (s : NodeState) (pose : Point), s.wps = [] → pose_cb s pose = (s, none)) ∧
    (∀ msg : Int, traffic_cb initState msg = .ok ((if msg < 0 then (-1 : ℝ) else 1) * (-1))) := by
  constructor
  · intro s pose h
    unfold pose_cb
    rw [if_pos (by simp [h])]
  · intro msg
    exact traffic_cb_of_neg_next_pt initState msg (by norm_num [initState])

/-- Witness for C5. -/
theorem missing_track_handling_witness :
    pose_cb initState ⟨0, 0, 0⟩ = (initState, none) ∧
    traffic_cb initState 2 = Except.ok (-1) := by
  refine ⟨missing_track_handling.1 initState ⟨0, 0, 0⟩ rfl, ?_⟩
  rw [missing_track_handling.2 2]
  norm_num

/-- Counterexample for C5 as stated: a traffic-light event in the initial
state, before any track has been loaded, does publish an output (the code
reaches the publish call with the -1.0 sentinel; it is not silently
ignored). -/
theorem traffic_cb_before_track_cex : traffic_cb initState 5 = Except.ok (-1) := by
  rw [traffic_cb_of_neg_next_pt initState 5 (by norm_num [initState])]
  norm_num

/-- C10: with a valid tracked next index, a decoded magnitude beyond the
last index of the arc-length table makes the relay raise IndexError at its
unchecked table access, so nothing is published. -/
theorem traffic_cb_out_of_range (s : NodeState) (msg : Int)
    (h0 : 0 ≤ s.next_pt)
    (_hv : s.next_pt.toNat < s.wps.length)
    (hmag : s.wp_ss.length ≤ (if msg < 0 then -msg else msg).toNat) :
    traffic_cb s msg = .error PyError.indexError := by
  have htl : (0 : Int) ≤ if msg < 0 then -msg else msg := by split <;> omega
  unfold traffic_cb
  rw [if_pos ⟨h0, htl⟩, List.getElem?_eq_none hmag]

/-- Witness for C10: table has 4 entries, decoded magnitude 10. -/
theorem traffic_cb_out_of_range_witness :
    traffic_cb { tlS with next_pt := 1 } 10 = Except.error PyError.indexError :=
  traffic_cb_out_of_range { tlS with next_pt := 1 } 10
    (by norm_num [tlS, initState]) (by norm_num [tlS, initState, exWps])
    (by norm_num [tlS, initState])

end

noncomputable section

/-- The arc-length loop appends exactly one entry per iteration. -/
lemma build_ss_step_length (wps : List Waypoint) (k : ℕ) :
    ∀ (i : ℕ) (prev : Point) (acc : ℝ), (build_ss_step wps k i prev acc).length = k := by
  induction k with
  | zero => intro i prev acc; rfl
  | succ k ih => intro i prev acc; simp [build_ss_step, ih]

/-- A track-load that passes the count check, the first-element access and
the average-spacing division succeeds and produces exactly the state the
source builds: track replaced, arc-length entries appended to the old
table, average spacing recomputed. -/
lemma waypoints_cb_ok (s : NodeState) (ws : List Waypoint) (w0 : Waypoint)
    (hne : ws.length ≠ s.wps.length) (hlen : 2 ≤ ws.length)
    (hhd : ws.head? = some w0) :
    waypoints_cb s ws = Except.ok
      { s with
          wps := ws
          wp_ss := s.wp_ss ++ build_ss_step ws (ws.length + 1) 0 w0.pos 0
          avg_wp_dist := gaps_sum ws / ((ws.length : ℝ) - 1) } := by
  unfold waypoints_cb
  rw [if_neg hne, hhd]
  exact if_neg (by omega)

/-- C2 (evaluation at the failing input): loading trackA (2 waypoints) and
then exWps (3 waypoints, a replacing load since the counts differ) leaves
an arc-length table of 3 + 4 = 7 entries, because waypoints_cb appends the
new cumulative entries to the old table instead of replacing it; the claim
requires exactly N + 1 = 4 entries. -/
theorem waypoints_cb_reload_appends_table :
    ((waypoints_cb initState trackA).bind fun t => waypoints_cb t exWps).map
        (fun t => t.wp_ss.length) = Except.ok 7 ∧
    (7 : ℕ) ≠ exWps.length + 1 := by
  refine ⟨?_, by norm_num [exWps]⟩
  rw [waypoints_cb_ok initState trackA ⟨⟨0, 0, 0⟩, 0⟩ (by norm_num [trackA, initState])
      (by norm_num [trackA]) rfl]
  rw [show ∀ (t : NodeState) (f : NodeState → Except PyError NodeState),
        (Except.ok t).bind f = f t from fun t f => rfl]
  rw [waypoints_cb_ok _ exWps ⟨⟨0, 0, 0⟩, 0⟩ (by norm_num [trackA, exWps])
      (by norm_num [exWps]) rfl]
  simp [Except.map, initState, build_ss_step_length, trackA, exWps]

/-- C9 (evaluation at the failing inputs): a one-waypoint load on a fresh
node reaches the average-spacing division with denominator length - 1 = 0
and raises ZeroDivisionError; an empty load on a fresh node is silently
treated as the same-count no-op rather than rejected; an empty load over a
held two-waypoint track raises IndexError at self.wps[0].  In no case is
the degenerate track rejected as a configuration error. -/
theorem waypoints_cb_degenerate_crash :
    waypoints_cb initState [⟨⟨0, 0, 0⟩, 0⟩] = Except.error PyError.zeroDivisionError ∧
    waypoints_cb initState [] = Except.ok initState ∧
    waypoints_cb heldS [] = Except.error PyError.indexError := by
  refine ⟨?_, rfl, ?_⟩
  · unfold waypoints_cb
    rw [if_neg (by norm_num [initState])]
    rfl
  · unfold waypoints_cb
    rw [if_neg (by norm_num [heldS, initState, trackA])]
    rfl

end

noncomputable section

lemma sqrt_four : Real.sqrt 4 = 2 := by
  rw [show (4 : ℝ) = 2 ^ 2 by norm_num, Real.sqrt_sq (by norm_num : (0 : ℝ) ≤ 2)]

/-- Projection ratio of waypoint 1 onto the chord from waypoint 0 to
waypoint 2 of exWps. -/
lemma ratio_c_p14 : line_ratio ⟨0, 0, 0⟩ ⟨1, 0, 0⟩ ⟨2, 0, 0⟩ = 1 := by
  unfold line_ratio dot_prod waypoints_to_vec point_dist point_dist_sq
  norm_num [sqrt_four]

/-- Projection ratio of the pose at x = 1.4 onto the same chord. -/
lemma ratio_e_p14 : line_ratio ⟨0, 0, 0⟩ p14 ⟨2, 0, 0⟩ = 1.4 := by
  unfold line_ratio dot_prod waypoints_to_vec point_dist point_dist_sq
  norm_num [p14, sqrt_four]

/-- Projection ratio of waypoint 2 onto the chord from waypoint 1 to
waypoint 0 of exWps (the chord used when the nearest index is 2). -/
lemma ratio_c_p16 : line_ratio ⟨1, 0, 0⟩ ⟨2, 0, 0⟩ ⟨0, 0, 0⟩ = -1 := by
  unfold line_ratio dot_prod waypoints_to_vec point_dist point_dist_sq
  norm_num

/-- Projection ratio of the pose at x = 1.6 onto that same chord. -/
lemma ratio_e_p16 : line_ratio ⟨1, 0, 0⟩ p16 ⟨0, 0, 0⟩ = -0.6 := by
  unfold line_ratio dot_prod waypoints_to_vec point_dist point_dist_sq
  norm_num [p16]

lemma reset_p14 : reset_index freshS p14 = -1 := by
  unfold reset_index
  split <;> rfl

lemma reset_p16 : reset_index freshS p16 = -1 := by
  unfold reset_index
  split <;> rfl

lemma reset_pneg : reset_index freshS pneg = -1 := by
  unfold reset_index
  split <;> rfl

lemma reset_p22 : reset_index boundedS p22 = 2 := by
  unfold reset_index
  rw [if_neg (by norm_num [point_dist_sq, p22, boundedS, freshS, initState])]
  rfl

lemma range_full3 : search_range freshS.wps.length (-1) = [0, 1, 2] := by
  unfold search_range
  rw [if_neg (by norm_num)]
  rfl

lemma range_bounded3 : search_range boundedS.wps.length 2 = [0, 1, 2] := by
  unfold search_range
  rw [if_pos (by norm_num)]
  rfl

lemma scan_p14 : scan_min freshS.wps p14 [0, 1, 2] = (1, 0.16) := by
  unfold scan_min scan_step dsqTo
  norm_num [freshS, initState, exWps, p14, point_dist_sq, wpDefault, List.getD]

lemma scan_p16 : scan_min freshS.wps p16 [0, 1, 2] = (2, 0.16) := by
  unfold scan_min scan_step dsqTo
  norm_num [freshS, initState, exWps, p16, point_dist_sq, wpDefault, List.getD]

lemma scan_pneg : scan_min freshS.wps pneg [0, 1, 2] = (0, 1) := by
  unfold scan_min scan_step dsqTo
  norm_num [freshS, initState, exWps, pneg, point_dist_sq, wpDefault, List.getD]

lemma scan_p22 : scan_min boundedS.wps p22 [0, 1, 2] = (2, 0.04) := by
  unfold scan_min scan_step dsqTo
  norm_num [boundedS, freshS, initState, exWps, p22, point_dist_sq, wpDefault, List.getD]

/-- Full evaluation of nearest_waypoint on freshS at x = 1.4: nearest index
1, which is interior to the searched range, so the sticky index is kept. -/
lemma nearest_eval_p14 :
    nearest_waypoint freshS p14 = ({ freshS with prev_pt := p14, prev_index := 1 }, 1) := by
  simp only [nearest_waypoint]
  rw [reset_p14, range_full3, scan_p14]
  norm_num

/-- Full evaluation of nearest_waypoint on freshS at x = 1.6: nearest index
2, which is the last element of the searched range, so the sticky index is
invalidated. -/
lemma nearest_eval_p16 :
    nearest_waypoint freshS p16 = ({ freshS with prev_pt := p16, prev_index := -1 }, 2) := by
  simp only [nearest_waypoint]
  rw [reset_p16, range_full3, scan_p16]
  norm_num

/-- Full evaluation of next_waypoint on freshS at x = 1.4: nearest index 1,
and the pose ratio 1.4 exceeds the waypoint ratio 1, so the result advances
to index 2. -/
lemma next_eval_p14 :
    next_waypoint freshS p14 = ({ freshS with prev_pt := p14, prev_index := 1 }, 2) := by
  simp only [next_waypoint]
  rw [nearest_eval_p14]
  norm_num [freshS, initState, exWps, List.getD, ratio_c_p14, ratio_e_p14]

/-- Full evaluation of next_waypoint on freshS at x = 1.6: nearest index 2,
and the pose ratio -0.6 exceeds the waypoint ratio -1 on the wrapped chord,
so the result advances past the loop boundary to index 0. -/
lemma next_eval_p16 :
    next_waypoint freshS p16 = ({ freshS with prev_pt := p16, prev_index := -1 }, 0) := by
  simp only [next_waypoint]
  rw [nearest_eval_p16]
  norm_num [freshS, initState, exWps, List.getD, ratio_c_p16, ratio_e_p16,
    show Int.toNat 2 = 2 from rfl]

end

noncomputable section

/-- C4 (amended): when nearest_waypoint yields a valid index cur on a
non-empty track whose neighbouring chord endpoints are distinct,
next_waypoint returns (cur + 1) mod trackLength exactly when the pose's
projection ratio on the chord from waypoint cur - 1 to waypoint cur + 1
exceeds waypoint cur's own ratio on that chord, and returns cur unchanged
otherwise.  The claimed concrete example is off by one pose: at x = 1.6 the
nearest waypoint is already the one at x = 2, so the advance wraps to index
0; the claimed behaviour holds at x = 1.4 instead (see the witness). -/
theorem next_waypoint_advance_rule (s : NodeState) (pose : Point) (s1 : NodeState) (cur : Int)
    (hnear : nearest_waypoint s pose = (s1, cur))
    (hlen : s.wps.length ≠ 0) (hc0 : 0 ≤ cur) (hcub : cur ≤ (s.wps.length : Int) - 1)
    (_hnd : 0 < point_dist_sq
        ((s.wps.getD ((cur.toNat + s.wps.length - 1) % s.wps.length) wpDefault).pos)
        ((s.wps.getD ((cur.toNat + 1) % s.wps.length) wpDefault).pos)) :
    (next_waypoint s pose).2 =
      if line_ratio ((s.wps.getD ((cur.toNat + s.wps.length - 1) % s.wps.length) wpDefault).pos)
             ((s.wps.getD cur.toNat wpDefault).pos)
             ((s.wps.getD ((cur.toNat + 1) % s.wps.length) wpDefault).pos)
         < line_ratio ((s.wps.getD ((cur.toNat + s.wps.length - 1) % s.wps.length) wpDefault).pos)
             pose
             ((s.wps.getD ((cur.toNat + 1) % s.wps.length) wpDefault).pos)
      then (((cur.toNat + 1) % s.wps.length : ℕ) : Int) else cur := by
  have hs1 : s1.wps = s.wps := by
    have h := congrArg (fun p => p.1.wps) hnear
    simp only [nearest_waypoint] at h
    exact h.symm
  simp only [next_waypoint]
  rw [hnear]
  dsimp only
  rw [hs1]
  rw [if_neg (by push_neg; exact ⟨hlen, hc0, hcub⟩)]
  rw [apply_ite Prod.snd]

/-- Witness for C4 at the corrected example: pose x = 1.4, nearest index 1,
pose ratio 1.4 against waypoint ratio 1, so the result advances to the
waypoint at x = 2 (index 2). -/
theorem next_waypoint_advance_rule_witness : (next_waypoint freshS p14).2 = 2 := by
  rw [next_waypoint_advance_rule freshS p14 { freshS with prev_pt := p14, prev_index := 1 } 1
      nearest_eval_p14 (by norm_num [freshS, initState, exWps])
      (by norm_num) (by norm_num [freshS, initState, exWps])
      (by norm_num [freshS, initState, exWps, List.getD, point_dist_sq, wpDefault,
        show Int.toNat 1 = 1 from rfl])]
  norm_num [freshS, initState, exWps, List.getD, ratio_c_p14, ratio_e_p14,
    show Int.toNat 1 = 1 from rfl]

/-- Counterexample for C4's concrete example as stated: at pose x = 1.6 on
the collinear track exWps the returned index is 0 (the nearest waypoint is
index 2 and the advance wraps past the loop boundary), not the index 2 of
the waypoint at x = 2. -/
theorem next_waypoint_example_cex :
    (next_waypoint freshS p16).2 = 0 ∧ (next_waypoint freshS p16).2 ≠ 2 := by
  rw [next_eval_p16]
  norm_num

end

noncomputable section

/-- Full evaluation of nearest_waypoint on freshS at x = -1: full-track
search (sticky unset), nearest index 0, which is the first element of the
range, so the sticky index is reset to -1 while 0 is returned. -/
lemma nearest_eval_pneg :
    nearest_waypoint freshS pneg = ({ freshS with prev_pt := pneg, prev_index := -1 }, 0) := by
  simp only [nearest_waypoint]
  rw [reset_pneg, range_full3, scan_pneg]
  norm_num

/-- C7 (amended): the boundary edge case of nearest_waypoint applies to
whichever range was searched, bounded window or full track alike: whenever
the selected minimum is the first or the last element of the searched
range, the sticky index is forced back to unset while the boundary index is
still returned this call.  (The exemption the claim makes for the
full-track search does not exist in the code.) -/
theorem nearest_boundary_invalidation (s : NodeState) (pose : Point)
    (hb : (search_range s.wps.length (reset_index s pose)).head?.map (fun n => (n : Int)) =
            some (scan_min s.wps pose (search_range s.wps.length (reset_index s pose))).1 ∨
          (search_range s.wps.length (reset_index s pose)).getLast?.map (fun n => (n : Int)) =
            some (scan_min s.wps pose (search_range s.wps.length (reset_index s pose))).1) :
    (nearest_waypoint s pose).1.prev_index = -1 ∧
    (nearest_waypoint s pose).2 =
      (scan_min s.wps pose (search_range s.wps.length (reset_index s pose))).1 := by
  refine ⟨?_, ?_⟩
  · simp only [nearest_waypoint]
    exact if_pos hb
  · simp only [nearest_waypoint]

/-- Witness for C7 on the bounded-window branch: boundedS has sticky index
2 and no reset fires at x = 2.2, so the bounded range [0, 1, 2] is
searched; the minimum at index 2 is the last element of that range, so the
sticky index is reset while 2 is returned. -/
theorem nearest_boundary_invalidation_witness :
    (nearest_waypoint boundedS p22).1.prev_index = -1 ∧
    (nearest_waypoint boundedS p22).2 =
      (scan_min boundedS.wps p22
        (search_range boundedS.wps.length (reset_index boundedS p22))).1 :=
  nearest_boundary_invalidation boundedS p22 (by
    rw [reset_p22, range_bounded3, scan_p22]
    exact Or.inr rfl)

/-- Counterexample for C7 as stated: from freshS the sticky index is unset,
so the search runs over the full-track range; the pose at x = -1 selects
index 0, the first element of that range, and the code still resets the
sticky index to -1 (the claim asserts a full-track search does not trigger
the invalidation, which would leave the sticky index at the returned 0). -/
theorem nearest_full_search_boundary_cex :
    reset_index freshS pneg = -1 ∧
    search_range freshS.wps.length (reset_index freshS pneg) = List.range freshS.wps.length ∧
    (nearest_waypoint freshS pneg).2 = 0 ∧
    (nearest_waypoint freshS pneg).1.prev_index = -1 ∧
    (nearest_waypoint freshS pneg).1.prev_index ≠ 0 := by
  refine ⟨reset_pneg, ?_, ?_, ?_, ?_⟩
  · rw [reset_pneg, range_full3]
    rfl
  · rw [nearest_eval_pneg]
  · rw [nearest_eval_pneg]
  · rw [nearest_eval_pneg]
    norm_num

end

noncomputable section

/-- Invariant of the scan loop: starting from an accumulator that already
holds a valid index and its squared distance, the fold keeps a valid index
whose squared distance is recorded in the accumulator, never increases the
recorded distance, and ends at or below the squared distance of every index
it visits. -/
lemma scan_foldl_spec (wps : List Waypoint) (ppt : Point) (rg : List ℕ) :
    ∀ acc : Int × ℝ, 0 ≤ acc.1 → acc.2 = dsqTo wps ppt acc.1.toNat →
      0 ≤ (rg.foldl (scan_step wps ppt) acc).1 ∧
      (rg.foldl (scan_step wps ppt) acc).2
        = dsqTo wps ppt (rg.foldl (scan_step wps ppt) acc).1.toNat ∧
      (rg.foldl (scan_step wps ppt) acc).2 ≤ acc.2 ∧
      ∀ j ∈ rg, (rg.foldl (scan_step wps ppt) acc).2 ≤ dsqTo wps ppt j := by
  induction rg with
  | nil =>
    intro acc h0 h2
    exact ⟨h0, h2, le_refl _, by simp⟩
  | cons i rest ih =>
    intro acc h0 h2
    simp only [List.foldl_cons]
    by_cases hlt : dsqTo wps ppt i < acc.2
    · have hstep : scan_step wps ppt acc i = ((i : Int), dsqTo wps ppt i) := by
        unfold scan_step
        rw [if_pos (Or.inr hlt)]
      rw [hstep]
      obtain ⟨a1, a2, a3, a4⟩ := ih ((i : Int), dsqTo wps ppt i)
        (by positivity) (by simp)
      refine ⟨a1, a2, le_trans a3 (le_of_lt hlt), ?_⟩
      intro j hj
      rcases List.mem_cons.mp hj with rfl | hj2
      · exact a3
      · exact a4 j hj2
    · have hstep : scan_step wps ppt acc i = acc := by
        unfold scan_step
        rw [if_neg]
        push_neg
        exact ⟨h0, le_of_not_lt hlt⟩
      rw [hstep]
      obtain ⟨a1, a2, a3, a4⟩ := ih acc h0 h2
      refine ⟨a1, a2, a3, ?_⟩
      intro j hj
      rcases List.mem_cons.mp hj with rfl | hj2
      · exact le_trans a3 (le_of_not_lt hlt)
      · exact a4 j hj2

/-- On a non-empty range the scan returns a valid index whose squared
distance is the minimum over the range (first occurrence wins). -/
lemma scan_min_spec (wps : List Waypoint) (ppt : Point) (i : ℕ) (rest : List ℕ) :
    0 ≤ (scan_min wps ppt (i :: rest)).1 ∧
    (scan_min wps ppt (i :: rest)).2
      = dsqTo wps ppt (scan_min wps ppt (i :: rest)).1.toNat ∧
    ∀ j ∈ i :: rest, (scan_min wps ppt (i :: rest)).2 ≤ dsqTo wps ppt j := by
  unfold scan_min
  simp only [List.foldl_cons]
  have hstep : scan_step wps ppt ((-1 : Int), (0 : ℝ)) i = ((i : Int), dsqTo wps ppt i) := by
    unfold scan_step
    rw [if_pos (Or.inl (by norm_num))]
  rw [hstep]
  obtain ⟨a1, a2, a3, a4⟩ := scan_foldl_spec wps ppt rest ((i : Int), dsqTo wps ppt i)
    (by positivity) (by simp)
  refine ⟨a1, a2, ?_⟩
  intro j hj
  rcases List.mem_cons.mp hj with rfl | hj2
  · exact a3
  · exact a4 j hj2

/-- C8: when the squared jump from the last recorded position exceeds
0.5 * averageSpacing * 200, the sticky index is discarded and the scan runs
over the whole track, so on a non-empty track the returned index minimises
the squared distance over every track index; otherwise, with a valid sticky
index, the scan runs exactly over the range from max(0, lastIndex - 5) up
to min(trackLength, lastIndex + 200 + 1) exclusive. -/
theorem nearest_search_window (s : NodeState) (pose : Point) :
    (0.5 * s.avg_wp_dist * 200 < point_dist_sq pose s.prev_pt →
      (nearest_waypoint s pose).2 = (scan_min s.wps pose (List.range s.wps.length)).1 ∧
      (s.wps ≠ [] →
        ∀ j < s.wps.length,
          dsqTo s.wps pose (scan_min s.wps pose (List.range s.wps.length)).1.toNat ≤
            dsqTo s.wps pose j)) ∧
    (¬ (0.5 * s.avg_wp_dist * 200 < point_dist_sq pose s.prev_pt) → -1 < s.prev_index →
      (nearest_waypoint s pose).2 =
        (scan_min s.wps pose
          (List.range' (max 0 (s.prev_index - 5)).toNat
            (min s.wps.length (s.prev_index + 200 + 1).toNat -
              (max 0 (s.prev_index - 5)).toNat))).1) := by
  constructor
  · intro hr
    have hreset : reset_index s pose = -1 := by
      unfold reset_index
      rw [if_pos hr]
    have hrange : search_range s.wps.length (reset_index s pose) = List.range s.wps.length := by
      rw [hreset]
      unfold search_range
      rw [if_neg (by norm_num)]
    constructor
    · simp only [nearest_waypoint]
      rw [hrange]
    · intro hne j hj
      obtain ⟨n, hn⟩ : ∃ n, s.wps.length = n + 1 := by
        rcases Nat.exists_eq_succ_of_ne_zero
          (fun h0 => hne (List.length_eq_zero.mp h0)) with ⟨n, hn⟩
        exact ⟨n, hn⟩
      rw [hn] at hj
      rw [hn, List.range_succ_eq_map]
      obtain ⟨a1, a2, a3⟩ := scan_min_spec s.wps pose 0 ((List.range n).map Nat.succ)
      rw [← a2]
      refine a3 j ?_
      rw [← List.range_succ_eq_map]
      exact List.mem_range.mpr hj
  · intro hnr hpi
    have hreset : reset_index s pose = s.prev_index := by
      unfold reset_index
      rw [if_neg hnr]
    have hrange : search_range s.wps.length (reset_index s pose) =
        List.range' (max 0 (s.prev_index - 5)).toNat
          (min s.wps.length (s.prev_index + 200 + 1).toNat -
            (max 0 (s.prev_index - 5)).toNat) := by
      rw [hreset]
      unfold search_range
      rw [if_pos hpi]
    simp only [nearest_waypoint]
    rw [hrange]

/-- Witness for C8: from freshS a pose at x = 1000 has squared jump 1000000
above the threshold 100, so the full-track scan is used; and from boundedS
(sticky index 2) a pose at x = 1.4 stays below the threshold, so the
bounded window is scanned. -/
theorem nearest_search_window_witness :
    (nearest_waypoint freshS p1000).2 =
      (scan_min freshS.wps p1000 (List.range freshS.wps.length)).1 ∧
    (nearest_waypoint boundedS p14).2 =
      (scan_min boundedS.wps p14
        (List.range' (max 0 (boundedS.prev_index - 5)).toNat
          (min boundedS.wps.length (boundedS.prev_index + 200 + 1).toNat -
            (max 0 (boundedS.prev_index - 5)).toNat))).1 :=
  ⟨((nearest_search_window freshS p1000).1
      (by norm_num [freshS, initState, p1000, point_dist_sq])).1,
    (nearest_search_window boundedS p14).2
      (by norm_num [boundedS, freshS, initState, p14, point_dist_sq])
      (by norm_num [boundedS, freshS, initState])⟩

end

noncomputable section

/-- C1 (amended): whenever the track is loaded and next_waypoint yields a
non-negative index, pose_cb publishes exactly the lookahead_window slice at
that index together with the index itself; and on a track of at least 240
waypoints that slice is the contiguous wrapping slice starting at the index
with length exactly min(240, trackLength) = 240.  (For tracks shorter than
240 waypoints the code's slice instead wraps past the start again and can
repeat waypoints, exceeding min(240, trackLength); see the
counterexample.) -/
theorem pose_cb_lookahead_amended :
    (∀ (s : NodeState) (pose : Point), s.wps ≠ [] → 0 ≤ (next_waypoint s pose).2 →
      pose_cb s pose =
        ({ (next_waypoint s pose).1 with next_pt := (next_waypoint s pose).2 },
         some (lookahead_window (next_waypoint s pose).1.wps
                 ((next_waypoint s pose).2).toNat,
               (next_waypoint s pose).2))) ∧
    (∀ (wps : List Waypoint) (np : ℕ), 240 ≤ wps.length → np < wps.length →
      lookahead_window wps np =
        (wps.drop np).take 240 ++ wps.take (np + 240 - wps.length) ∧
      (lookahead_window wps np).length = min 240 wps.length) := by
  constructor
  · intro s pose hne h2
    unfold pose_cb
    rw [if_neg (fun h => hne (List.length_eq_zero.mp h))]
    dsimp only
    rw [if_neg (not_lt.mpr h2)]
  · intro wps np h240 hlt
    have heq : lookahead_window wps np =
        (wps.drop np).take 240 ++ wps.take (np + 240 - wps.length) := by
      simp only [lookahead_window, LOOKAHEAD_WPS]
      by_cases h : np + 240 ≤ wps.length
      · rw [if_neg (by omega)]
        rw [min_eq_left h, show np + 240 - np = 240 by omega,
          show np + 240 - wps.length = 0 by omega, List.take_zero,
          List.append_nil]
      · rw [if_pos (by omega)]
        rw [min_eq_right (by omega : wps.length ≤ np + 240),
          show ((((np + 240 : ℕ) : Int) - (wps.length : Int)).toNat)
            = np + 240 - wps.length by omega]
        rw [List.take_of_length_le
            (show (wps.drop np).length ≤ wps.length - np by rw [List.length_drop]),
          List.take_of_length_le
            (show (wps.drop np).length ≤ 240 by rw [List.length_drop]; omega)]
    refine ⟨heq, ?_⟩
    rw [heq]
    rw [List.length_append, List.length_take, List.length_take, List.length_drop]
    omega

/-- Witness for C1: on the loaded three-waypoint state the pose at x = 1.4
yields the tracked index 2 and pose_cb publishes the corresponding window;
and on a 300-waypoint track with tracked index 200 the window is
track waypoints 200 to 299 followed by waypoints 0 to 139, of length
exactly 240 = min(240, 300). -/
theorem pose_cb_lookahead_amended_witness :
    pose_cb freshS p14 =
      ({ (next_waypoint freshS p14).1 with next_pt := (next_waypoint freshS p14).2 },
       some (lookahead_window (next_waypoint freshS p14).1.wps
               ((next_waypoint freshS p14).2).toNat,
             (next_waypoint freshS p14).2)) ∧
    (lookahead_window R300 200 =
        (R300.drop 200).take 240 ++ R300.take (200 + 240 - R300.length) ∧
      (lookahead_window R300 200).length = min 240 R300.length) :=
  ⟨pose_cb_lookahead_amended.1 freshS p14 (by simp [freshS, initState, exWps])
      (by rw [next_eval_p14]; norm_num),
    pose_cb_lookahead_amended.2 R300 200 (by norm_num [R300]) (by norm_num [R300])⟩

/-- Counterexample for C1 as stated: on the three-waypoint track the pose
at x = 1.4 is tracked at index 2 and the published window has 4 waypoints
(the slice wraps and repeats the waypoint at index 2), not
min(240, 3) = 3. -/
theorem pose_cb_lookahead_short_track_cex :
    (pose_cb freshS p14).2.map (fun o => o.1.length) = some 4 ∧
    min 240 freshS.wps.length = 3 ∧
    (pose_cb freshS p14).2.map (fun o => o.1.length) ≠
      some (min 240 freshS.wps.length) := by
  have hwlen : (lookahead_window freshS.wps 2).length = 4 := rfl
  have hp : (pose_cb freshS p14).2 = some (lookahead_window freshS.wps 2, 2) := by
    unfold pose_cb
    rw [if_neg (by norm_num [freshS, initState, exWps])]
    dsimp only
    rw [next_eval_p14]
    norm_num [show Int.toNat 2 = 2 from rfl]
  refine ⟨?_, rfl, ?_⟩
  · rw [hp]
    simp [hwlen]
  · rw [hp]
    simp [hwlen]
    norm_num [freshS, initState, exWps]

end
